import Mathlib

/-!
Verification of the NeuralCanvas frontend workflow store against its
natural-language specification.

The development shallowly embeds the Pinia workflow store of the repository
(the file defining useWorkflowStore: NodeExecutionStatus, resetExecutionState,
runWorkflow, the websocket onmessage handler, fetchModels, totalCost and the
persistence helpers saveWorkflow, loadWorkflow, getSavedWorkflows,
deleteWorkflow), together with the Handle declarations of the LoopNode
component and the initial graph shipped in the canvas component.

Modelling conventions:
- JavaScript objects used as records become Lean structures; fields that may
  be absent or undefined become Option.
- The nodeStatus record (a JS object keyed by node id) is an association
  list; JS property assignment is setKey (replace in place, else append),
  which preserves the JS key-insertion order that Object.values observes.
- JSON values are the inductive Json below; JSON.stringify dropping
  undefined fields is mirrored by List.filterMap in the serializers.
- JS number arithmetic on prices and costs is modelled in Rat; the
  parseFloat of a pricing string is modelled by an Option Rat field (none
  when parsing fails), and the source expression parseFloat x || 0 becomes
  Option.getD 0.
- Asynchronous effects (opening the websocket, sending the single frame,
  the HTTP request of fetchModels) are reified as data: RunAction,
  HttpRequest and FetchOutcome.
-/

namespace NeuralCanvas

/-- JSON values, used to state which fields the client serializes. -/
inductive Json where
  | null : Json
  | bool : Bool → Json
  | num : Rat → Json
  | str : String → Json
  | arr : List Json → Json
  | obj : List (String × Json) → Json

/-- Keys of a JSON object, in serialization order. -/
def jsonKeys (j : Json) : List String :=
  match j with
  | Json.obj fields => fields.map (fun f => f.1)
  | _ => []

/-- Field access on a JSON object. -/
def jlookup (j : Json) (k : String) : Option Json :=
  match j with
  | Json.obj fields => (fields.find? (fun f => f.1 == k)).map (fun f => f.2)
  | _ => none

/-- Canvas position of a node; the submitted values are ignored by the engine. -/
structure Position where
  x : Int
  y : Int
deriving DecidableEq

/-- The node_config object of a node; only the fields read by the store are modelled. -/
structure NodeConfig where
  model : Option String
  max_iterations : Option Nat
deriving DecidableEq

/-- The data object of a node; only the fields read by the store are modelled. -/
structure NodeData where
  label : Option String
  inputValue : Option String
  node_config : Option NodeConfig
deriving DecidableEq

/-- A vue-flow node as held in the store. The source and target fields model the
possible edge contamination that the runWorkflow filter guards against; the type
field is total because every node constructed by the editor carries a type tag. -/
structure Node where
  id : String
  type : String
  position : Option Position
  data : Option NodeData
  source : Option String
  target : Option String
deriving DecidableEq

/-- A vue-flow edge as held in the store; style-only fields are not modelled
because no embedded function reads them. -/
structure Edge where
  id : String
  source : String
  target : String
  sourceHandle : Option String
  targetHandle : Option String
  animated : Option Bool
deriving DecidableEq

/-- Pricing of a model as delivered by the discovery endpoint. The two fields
are the parseFloat results of the pricing strings, none when parsing fails. -/
structure Pricing where
  prompt : Option Rat
  completion : Option Rat
deriving DecidableEq

/-- An entry of the available model list. -/
structure ModelInfo where
  id : String
  name : String
  pricing : Option Pricing
deriving DecidableEq

/-- Token usage recorded for a node; cost is calculated on the frontend. -/
structure Usage where
  input_tokens : Nat
  output_tokens : Nat
  total_tokens : Nat
  cost : Option Rat
deriving DecidableEq

/-- Per-node execution status of the store. The status field holds one of the
string literals of the TypeScript union: idle, running, success, error, skipped. -/
structure NodeExecutionStatus where
  status : String
  result : Option String
  stream : Option String
  usage : Option Usage
deriving DecidableEq

/-- A saved workflow entry of the persistence layer. -/
structure Flow where
  id : String
  name : String
  nodes : List Node
  edges : List Edge
  savedAt : String
deriving DecidableEq

/-- The reactive state of the workflow store. savedWorkflows models the JSON
array stored under the neural_workflows key of localStorage, with the
stringify-parse round trip of localStorage modelled as the identity. -/
structure StoreState where
  nodes : List Node
  edges : List Edge
  isExecuting : Bool
  executionLogs : List String
  nodeStatus : List (String × NodeExecutionStatus)
  apiKey : String
  isConnected : Bool
  availableModels : List ModelInfo
  isLoadingModels : Bool
  modelFetchError : Option String
  savedWorkflows : List Flow
deriving DecidableEq

/-- JS property assignment on an object modelled as an association list:
replace the binding in place when the key exists, append otherwise. -/
def setKey {α : Type} (m : List (String × α)) (k : String) (v : α) : List (String × α) :=
  match m with
  | [] => [(k, v)]
  | (k1, v1) :: rest => if k1 = k then (k, v) :: rest else (k1, v1) :: setKey rest k v

/-- JS property read on an object modelled as an association list. -/
def getKey {α : Type} (m : List (String × α)) (k : String) : Option α :=
  match m with
  | [] => none
  | (k1, v1) :: rest => if k1 = k then some v1 else getKey rest k

/-- JS truthiness of an optional string: absent and empty are falsy. -/
def jsTruthyStr (o : Option String) : Bool :=
  match o with
  | none => false
  | some s => s != ""

/-- JS expression o || d on an optional string. -/
def jsStrOr (o : Option String) (d : String) : String :=
  match o with
  | none => d
  | some s => if s = "" then d else s

/-- JS expression o || null on an optional string, as a JSON value. -/
def jsOrNull (o : Option String) : Json :=
  match o with
  | none => Json.null
  | some s => if s = "" then Json.null else Json.str s

/-- Serialization of a position object. -/
def jsonOfPosition (p : Position) : Json :=
  Json.obj [("x", Json.num p.x), ("y", Json.num p.y)]

/-- Serialization of a node_config object; absent fields are dropped, as
JSON.stringify drops undefined properties. -/
def jsonOfConfig (c : NodeConfig) : Json :=
  Json.obj (List.filterMap id
    [c.model.map (fun s => ("model", Json.str s)),
     c.max_iterations.map (fun n => ("max_iterations", Json.num n))])

/-- Serialization of a data object; absent fields are dropped. -/
def jsonOfData (d : NodeData) : Json :=
  Json.obj (List.filterMap id
    [d.label.map (fun s => ("label", Json.str s)),
     d.inputValue.map (fun s => ("inputValue", Json.str s)),
     d.node_config.map (fun c => ("node_config", jsonOfConfig c))])

/-- The default for the data field of a serialized node: the empty object. -/
def emptyData : NodeData :=
  { label := none, inputValue := none, node_config := none }

/-- The per-node serialization performed by runWorkflow: the object literal
with fields id, type, position and data, where data defaults to the empty
object. A node passing the cleanNodes filter always has a position. -/
def cleanNode (n : Node) : Json :=
  Json.obj (List.filterMap id
    [some ("id", Json.str n.id),
     some ("type", Json.str n.type),
     n.position.map (fun p => ("position", jsonOfPosition p)),
     some ("data", jsonOfData (n.data.getD emptyData))])

/-- The filter runWorkflow applies before serializing nodes: a position must be
present and no source or target field may be set. -/
def isCleanNode (n : Node) : Bool :=
  n.position.isSome && !(jsTruthyStr n.source) && !(jsTruthyStr n.target)

/-- The cleanNodes array built by runWorkflow. -/
def cleanNodes (ns : List Node) : List Json :=
  (ns.filter isCleanNode).map cleanNode

/-- The per-edge serialization performed by runWorkflow. -/
def cleanEdge (e : Edge) : Json :=
  Json.obj
    [("id", Json.str e.id),
     ("source", Json.str e.source),
     ("target", Json.str e.target),
     ("sourceHandle", jsOrNull e.sourceHandle),
     ("targetHandle", jsOrNull e.targetHandle),
     ("animated", Json.bool (e.animated.getD false))]

/-- The single client frame runWorkflow sends after the websocket opens. -/
def graphPayload (apiKey : String) (ns : List Node) (es : List Edge) : Json :=
  Json.obj
    [("apiKey", Json.str apiKey),
     ("nodes", Json.arr (cleanNodes ns)),
     ("edges", Json.arr (es.map cleanEdge))]

/-- The observable connection effects of runWorkflow, reified as data. -/
inductive RunAction where
  | openWs : String → RunAction
  | send : Json → RunAction

/-- The websocket endpoint runWorkflow connects to. -/
def wsEndpoint : String := "ws://localhost:8000/ws/execute"

/-- The reset performed at the start of every run: isExecuting becomes true,
logs are cleared, and every store node gets a fresh idle record with an empty
stream. -/
def resetExecutionState (st : StoreState) : StoreState :=
  { st with
    isExecuting := true
    executionLogs := []
    nodeStatus := st.nodes.foldl
      (fun m n => setKey m n.id
        { status := "idle", result := none, stream := some "", usage := none }) [] }

/-- runWorkflow up to its connection effects: with no nodes it returns at once
leaving the state untouched; otherwise it resets the execution state, opens the
websocket and sends the single graph payload frame. -/
def runWorkflow (st : StoreState) : StoreState × List RunAction :=
  if st.nodes.length = 0 then (st, [])
  else
    (resetExecutionState st,
     [RunAction.openWs wsEndpoint,
      RunAction.send (graphPayload st.apiKey st.nodes st.edges)])

/-- Server frames as parsed by the onmessage handler. The three message types
of the shared error branch are kept distinct; node_id is optional there because
the handler tests its presence. -/
inductive ServerMsg where
  | node_start : String → ServerMsg
  | token_stream : String → String → ServerMsg
  | node_finish : String → String → ServerMsg
  | node_skipped : String → ServerMsg
  | node_usage : String → Nat → Nat → Nat → ServerMsg
  | execution_complete : ServerMsg
  | error : Option String → String → ServerMsg
  | node_error : Option String → String → ServerMsg
  | execution_error : Option String → String → ServerMsg
deriving DecidableEq

/-- The client session state seen by the handler: the store plus whether the
client has closed its websocket. -/
structure WsSession where
  store : StoreState
  wsClosed : Bool
deriving DecidableEq

/-- The configured model of a node, when set. -/
def configuredModel (n : Node) : Option String :=
  n.data.bind (fun d => d.node_config.bind (fun c => c.model))

/-- The model id used for pricing a node_usage frame: the node_config model of
the node, defaulting to the fixed fallback id. -/
def effectiveModelId (st : StoreState) (nodeId : String) : String :=
  jsStrOr ((st.nodes.find? (fun n => n.id == nodeId)).bind configuredModel)
    "openai/gpt-3.5-turbo"

/-- Lookup of a model id in the available model list. -/
def lookupModel (st : StoreState) (modelId : String) : Option ModelInfo :=
  st.availableModels.find? (fun m => m.id == modelId)

/-- The pricing object the node_usage handler finds for a node, if any. -/
def modelPricing (st : StoreState) (nodeId : String) : Option Pricing :=
  (lookupModel st (effectiveModelId st nodeId)).bind (fun m => m.pricing)

/-- The cost computed by the node_usage handler: token counts times the parsed
prices when the model is found with a pricing object, zero otherwise; a price
whose parse failed contributes zero through the source expression
parseFloat x || 0. -/
def nodeUsageCost (st : StoreState) (nodeId : String) (itok otok : Nat) : Rat :=
  match modelPricing st nodeId with
  | none => 0
  | some p => (itok : Rat) * p.prompt.getD 0 + (otok : Rat) * p.completion.getD 0

/-- The record written by the node_finish handler: spread of the existing
record, then status success and both result and stream set to the full result. -/
def finishStatus (existing : Option NodeExecutionStatus) (result : String) :
    NodeExecutionStatus :=
  { status := "success", result := some result, stream := some result,
    usage := existing.bind (fun e => e.usage) }

/-- Replacement of the nodeStatus record inside a session. -/
def withNodeStatus (s : WsSession) (m : List (String × NodeExecutionStatus)) : WsSession :=
  { s with store := { s.store with nodeStatus := m } }

/-- Clearing of the isExecuting flag inside a session. -/
def stopExecuting (s : WsSession) : WsSession :=
  { s with store := { s.store with isExecuting := false } }

/-- The shared branch of the handler for the error, node_error and
execution_error message types: record an error status when a node id other
than system is present, and stop executing in every case. -/
def errorCase (s : WsSession) (nid : Option String) (err : String) : WsSession :=
  match nid with
  | some v =>
    if v != "" && v != "system" then
      stopExecuting (withNodeStatus s (setKey s.store.nodeStatus v
        { status := "error", result := some err, stream := none, usage := none }))
    else
      stopExecuting s
  | none => stopExecuting s

/-- The onmessage handler of runWorkflow, one server frame at a time. -/
def handleMessage (s : WsSession) (msg : ServerMsg) : WsSession :=
  match msg with
  | ServerMsg.node_start nid =>
    withNodeStatus s (setKey s.store.nodeStatus nid
      { status := "running", result := none, stream := some "", usage := none })
  | ServerMsg.token_stream nid tok =>
    match getKey s.store.nodeStatus nid with
    | none => s
    | some e =>
      match e.stream with
      | none => s
      | some cur =>
        withNodeStatus s (setKey s.store.nodeStatus nid
          { e with stream := some (cur ++ tok) })
  | ServerMsg.node_finish nid res =>
    withNodeStatus s (setKey s.store.nodeStatus nid
      (finishStatus (getKey s.store.nodeStatus nid) res))
  | ServerMsg.node_skipped nid =>
    withNodeStatus s (setKey s.store.nodeStatus nid
      { status := "skipped", result := none, stream := none, usage := none })
  | ServerMsg.node_usage nid itok otok ttok =>
    match getKey s.store.nodeStatus nid with
    | none => s
    | some e =>
      withNodeStatus s (setKey s.store.nodeStatus nid
        { e with usage := some (
          { input_tokens := itok
            output_tokens := otok
            total_tokens := ttok
            cost := some (nodeUsageCost s.store nid itok otok) } : Usage) })
  | ServerMsg.execution_complete =>
    { stopExecuting s with wsClosed := true }
  | ServerMsg.error nid err => errorCase s nid err
  | ServerMsg.node_error nid err => errorCase s nid err
  | ServerMsg.execution_error nid err => errorCase s nid err

/-- Processing of a list of server frames in delivery order. -/
def processTrace (s : WsSession) (msgs : List ServerMsg) : WsSession :=
  msgs.foldl handleMessage s

/-- The accumulated stream text of a node, when defined. -/
def streamOf (s : WsSession) (v : String) : Option String :=
  (getKey s.store.nodeStatus v).bind (fun e => e.stream)

/-- The cost recorded in a status entry, zero when absent. -/
def recordedCost (e : NodeExecutionStatus) : Rat :=
  (e.usage.bind (fun u => u.cost)).getD 0

/-- The totalCost computed property: the fold over the status records, adding
every cost that is truthy as a JS number, that is, nonzero. -/
def totalCost (st : StoreState) : Rat :=
  st.nodeStatus.foldl
    (fun acc kv =>
      match kv.2.usage with
      | some u =>
        match u.cost with
        | some c => if c ≠ 0 then acc + c else acc
        | none => acc
      | none => acc) 0

/-- Whether a server frame terminates the run in the sense of the protocol. -/
def isTerminator (m : ServerMsg) : Bool :=
  match m with
  | ServerMsg.execution_complete => true
  | ServerMsg.execution_error _ _ => true
  | _ => false

/-- Number of run terminators in a server trace. -/
def countTerminators (tr : List ServerMsg) : Nat :=
  (tr.filter isTerminator).length

/-- Modelled from the spec: the run-terminating behaviour of the backend
execution engine, whose sources are not part of the frontend tree. The spec
states that every session ends with exactly one of execution_complete or
execution_error; a well-formed server trace of one session is therefore
nonempty, ends with a terminator, and contains exactly one terminator. -/
def wfServerTrace (tr : List ServerMsg) : Bool :=
  match tr.getLast? with
  | none => false
  | some m => isTerminator m && countTerminators tr == 1

/-- An HTTP request of the frontend, reified as data. -/
structure HttpRequest where
  method : String
  host : String
  path : String
  query : List (String × String)
deriving DecidableEq

/-- The model discovery request issued by fetchModels: a GET of the path
api slash models with the api key as a query parameter. The source builds the
URL by string concatenation with encodeURIComponent on the key; the embedding
keeps the components apart. -/
def modelsRequest (apiKey : String) : HttpRequest :=
  { method := "GET", host := "http://localhost:8000", path := "/api/models",
    query := [("api_key", apiKey)] }

/-- The guard of fetchModels: no request is made without an API key. -/
def fetchModelsRequest (st : StoreState) : Option HttpRequest :=
  if st.apiKey == "" then none else some (modelsRequest st.apiKey)

/-- Outcome of the discovery exchange: a thrown error or a non-ok response,
or a parsed JSON body whose data field may be absent. -/
inductive FetchOutcome where
  | failure : String → FetchOutcome
  | body : Option (List ModelInfo) → FetchOutcome

/-- The fallback model list installed when discovery fails. -/
def fallbackModels : List ModelInfo :=
  [{ id := "openai/gpt-3.5-turbo", name := "GPT-3.5 Turbo (Fallback)", pricing := none },
   { id := "openai/gpt-4-turbo", name := "GPT-4 Turbo (Fallback)", pricing := none },
   { id := "anthropic/claude-3-opus", name := "Claude 3 Opus (Fallback)", pricing := none }]

/-- How fetchModels updates the store from the outcome of the exchange: a body
with a data field replaces the available model list in full; a missing data
field or a failed exchange records an error and installs the fallback list. -/
def applyModelsResponse (st : StoreState) (outcome : FetchOutcome) : StoreState :=
  match outcome with
  | FetchOutcome.body (some data) =>
    { st with
      availableModels := data
      modelFetchError := none
      isLoadingModels := false }
  | FetchOutcome.body none =>
    { st with
      availableModels := fallbackModels
      modelFetchError := some "Invalid response format"
      isLoadingModels := false }
  | FetchOutcome.failure m =>
    { st with
      availableModels := fallbackModels
      modelFetchError := some m
      isLoadingModels := false }

/-- saveWorkflow: append a new entry built from the current nodes and edges;
the fresh UUID and the timestamp are inputs of the embedding. -/
def saveWorkflow (st : StoreState) (freshId now wfName : String) : StoreState :=
  { st with savedWorkflows := st.savedWorkflows ++
    [{ id := freshId, name := wfName, nodes := st.nodes, edges := st.edges,
       savedAt := now }] }

/-- getSavedWorkflows: the parsed content of the persistence slot. -/
def getSavedWorkflows (st : StoreState) : List Flow :=
  st.savedWorkflows

/-- loadWorkflow: restore nodes and edges from the first entry with the given
id, resetting the execution state; the deep copy through JSON is modelled as
the identity on the structural data. -/
def loadWorkflow (st : StoreState) (id : String) : StoreState :=
  match st.savedWorkflows.find? (fun w => w.id == id) with
  | some flow =>
    { st with
      nodes := flow.nodes
      edges := flow.edges
      nodeStatus := []
      isExecuting := false }
  | none => st

/-- deleteWorkflow: keep exactly the entries whose id differs. -/
def deleteWorkflow (st : StoreState) (id : String) : StoreState :=
  { st with savedWorkflows := st.savedWorkflows.filter (fun w => w.id != id) }

/-- Kind of a vue-flow connection handle. -/
inductive HandleKind where
  | source : HandleKind
  | target : HandleKind
deriving DecidableEq

/-- A handle declared by a node component template. -/
structure HandleDecl where
  kind : HandleKind
  id : Option String
deriving DecidableEq

/-- The handles declared by the LoopNode component template, in template order:
one unnamed target handle and the two named source handles loop and done. -/
def loopNodeHandles : List HandleDecl :=
  [{ kind := HandleKind.target, id := none },
   { kind := HandleKind.source, id := some "loop" },
   { kind := HandleKind.source, id := some "done" }]

/-- The type tag of a node of a graph, by id. -/
def nodeTypeOf (ns : List Node) (nid : String) : Option String :=
  (ns.find? (fun n => n.id == nid)).map (fun n => n.type)

/-- The initial nodes shipped by the canvas component. -/
def initialNodes : List Node :=
  [{ id := "1"
     type := "neural-input"
     position := some { x := 50, y := 200 }
     data := some { label := some "Start", inputValue := some "Loop Test Start", node_config := none }
     source := none
     target := none },
   { id := "2"
     type := "neural-loop"
     position := some { x := 400, y := 200 }
     data := some { label := some "Iterator", inputValue := none, node_config := some { model := none, max_iterations := some 3 } }
     source := none
     target := none },
   { id := "3"
     type := "neural-llm"
     position := some { x := 800, y := 50 }
     data := some { label := some "Looped Worker", inputValue := none, node_config := none }
     source := none
     target := none },
   { id := "4"
     type := "neural-output"
     position := some { x := 800, y := 350 }
     data := some { label := some "Final Result", inputValue := none, node_config := none }
     source := none
     target := none }]

/-- The initial edges shipped by the canvas component; style objects are not
modelled. -/
def initialEdges : List Edge :=
  [{ id := "e1-2", source := "1", target := "2", sourceHandle := none,
     targetHandle := none, animated := some true },
   { id := "e2-3", source := "2", target := "3", sourceHandle := some "loop",
     targetHandle := none, animated := some true },
   { id := "e3-2", source := "3", target := "2", sourceHandle := none,
     targetHandle := none, animated := some true },
   { id := "e2-4", source := "2", target := "4", sourceHandle := some "done",
     targetHandle := none, animated := some true }]

/-- The status values that actually occur in the store. -/
def validStatuses : List String :=
  ["idle", "running", "success", "error", "skipped"]

/-- The status values named by the specification for the per-vertex lifecycle. -/
def claimStatuses : List String :=
  ["pending", "ready", "running", "success", "failed", "skipped"]

/-- A store with no nodes, used as a concrete evaluation point. -/
def emptyStore : StoreState :=
  { nodes := []
    edges := []
    isExecuting := false
    executionLogs := []
    nodeStatus := []
    apiKey := ""
    isConnected := false
    availableModels := []
    isLoadingModels := false
    modelFetchError := none
    savedWorkflows := [] }

/-- A concrete node used as an evaluation point. -/
def demoNode : Node :=
  { id := "n1"
    type := "neural-input"
    position := some { x := 0, y := 0 }
    data := none
    source := none
    target := none }

/-- A store holding one node, used as a concrete evaluation point. -/
def demoStore : StoreState :=
  { emptyStore with nodes := [demoNode] }

end NeuralCanvas

namespace NeuralCanvas

/-- C8: with an empty node list, runWorkflow returns immediately: no connection
is opened, no frame is sent, and the store state, the isExecuting flag and the
nodeStatus record included, is unchanged. -/
theorem C8_empty_guard (st : StoreState) (h : st.nodes = []) :
    runWorkflow st = (st, []) ∧
    (runWorkflow st).1.isExecuting = st.isExecuting ∧
    (runWorkflow st).1.nodeStatus = st.nodeStatus := by
  have hlen : st.nodes.length = 0 := by simp [h]
  refine ⟨?_, ?_, ?_⟩ <;> simp [runWorkflow, hlen]

/-- Witness for C8 at the concrete empty store. -/
theorem C8_empty_guard_witness :
    emptyStore.nodes = [] ∧ runWorkflow emptyStore = (emptyStore, []) :=
  ⟨rfl, (C8_empty_guard emptyStore rfl).1⟩

/-- C1: for a run started with a nonempty node list, runWorkflow opens one
websocket connection and sends exactly one frame, the graph payload, whose
keys are apiKey, nodes and edges; every entry of the serialized nodes array
has exactly the fields id, type, position and data, and the data field of a
node without data is the empty object. -/
theorem C1_single_frame (st : StoreState) (h : st.nodes ≠ []) :
    (runWorkflow st).2 =
      [RunAction.openWs wsEndpoint,
       RunAction.send (graphPayload st.apiKey st.nodes st.edges)] ∧
    jsonKeys (graphPayload st.apiKey st.nodes st.edges) = ["apiKey", "nodes", "edges"] ∧
    (∀ j ∈ cleanNodes st.nodes, jsonKeys j = ["id", "type", "position", "data"]) ∧
    (∀ n ∈ st.nodes, n.data = none → jlookup (cleanNode n) "data" = some (Json.obj [])) := by
  refine ⟨?_, rfl, ?_, ?_⟩
  · have hlen : st.nodes.length ≠ 0 := by
      simpa [List.length_eq_zero] using h
    simp [runWorkflow, hlen]
  · intro j hj
    simp only [cleanNodes, List.mem_map, List.mem_filter] at hj
    obtain ⟨n, ⟨-, hclean⟩, rfl⟩ := hj
    have hpos : n.position.isSome = true := by
      simp [isCleanNode, Bool.and_eq_true] at hclean
      exact hclean.1.1
    cases hp : n.position with
    | none => rw [hp] at hpos; simp at hpos
    | some p => simp only [cleanNode, hp]; rfl
  · intro n _ hdata
    cases hp : n.position <;> simp only [cleanNode, hdata, hp] <;> rfl

/-- Witness for C1 at the concrete one-node store. -/
theorem C1_single_frame_witness :
    demoStore.nodes ≠ [] ∧
    (runWorkflow demoStore).2 =
      [RunAction.openWs wsEndpoint,
       RunAction.send (graphPayload demoStore.apiKey demoStore.nodes demoStore.edges)] :=
  ⟨by decide, (C1_single_frame demoStore (by decide)).1⟩

/-- A concrete edge without handles, used as an evaluation point. -/
def demoEdge : Edge :=
  { id := "e0"
    source := "a"
    target := "b"
    sourceHandle := none
    targetHandle := none
    animated := none }

/-- C6 counterexample: the serialized edge object of the submitted frame does
not have exactly the five claimed fields; it additionally carries an animated
field. -/
theorem C6_counterexample :
    jsonKeys (cleanEdge demoEdge) ≠
      ["id", "source", "target", "sourceHandle", "targetHandle"] ∧
    "animated" ∈ jsonKeys (cleanEdge demoEdge) ∧
    jlookup (graphPayload "" [] [demoEdge]) "edges" =
      some (Json.arr [cleanEdge demoEdge]) :=
  ⟨by decide, by decide, rfl⟩

/-- C6 amended: every submitted edge object has exactly the fields id, source,
target, sourceHandle, targetHandle and animated; the handle fields carry the
handle when present and null otherwise, and animated defaults to false. -/
theorem C6_edge_shape (e : Edge) (s : String) (hs : s ≠ "") :
    jsonKeys (cleanEdge e) =
      ["id", "source", "target", "sourceHandle", "targetHandle", "animated"] ∧
    jlookup (cleanEdge e) "sourceHandle" = some (jsOrNull e.sourceHandle) ∧
    jlookup (cleanEdge e) "targetHandle" = some (jsOrNull e.targetHandle) ∧
    jlookup (cleanEdge e) "animated" = some (Json.bool (e.animated.getD false)) ∧
    jsOrNull none = Json.null ∧
    jsOrNull (some s) = Json.str s :=
  ⟨rfl, rfl, rfl, rfl, rfl, by simp [jsOrNull, hs]⟩

/-- Witness for the amended C6 at a concrete nonempty handle. -/
theorem C6_edge_shape_witness :
    ("loop" : String) ≠ "" ∧ jsOrNull (some "loop") = Json.str "loop" :=
  ⟨by decide, (C6_edge_shape demoEdge "loop" (by decide)).2.2.2.2.2⟩

/-- C7 counterexample: the discovery request of fetchModels is issued at the
path api slash models, not at the claimed path. -/
theorem C7_counterexample :
    (modelsRequest "k").path = "/api/models" ∧ (modelsRequest "k").path ≠ "/models" :=
  ⟨rfl, by decide⟩

/-- C7 amended: model discovery is a GET of the api slash models path with the
api_key query parameter, and a response body carrying a data field replaces
the available model list with that array in full. -/
theorem C7_discovery (st : StoreState) (k : String) (data : List ModelInfo) :
    (modelsRequest k).method = "GET" ∧
    (modelsRequest k).path = "/api/models" ∧
    (modelsRequest k).query = [("api_key", k)] ∧
    (applyModelsResponse st (FetchOutcome.body (some data))).availableModels = data :=
  ⟨rfl, rfl, rfl, rfl⟩

/-- The loop-port edge of the initial graph, used as an evaluation point. -/
def loopLoopEdge : Edge :=
  { id := "e2-3"
    source := "2"
    target := "3"
    sourceHandle := some "loop"
    targetHandle := none
    animated := some true }

/-- C5: the LoopNode component declares exactly the two named source ports
loop and done and one unnamed target port, and in the shipped initial graph
every outgoing edge of the loop vertex uses one of the ports loop and done. -/
theorem C5_loop_ports :
    ((loopNodeHandles.filter (fun h => h.kind == HandleKind.source)).map
      (fun h => h.id)) = [some "loop", some "done"] ∧
    ((loopNodeHandles.filter (fun h => h.kind == HandleKind.target)).map
      (fun h => h.id)) = [none] ∧
    (∀ e ∈ initialEdges,
      nodeTypeOf initialNodes e.source = some "neural-loop" →
      e.sourceHandle = some "loop" ∨ e.sourceHandle = some "done") := by
  refine ⟨rfl, rfl, ?_⟩
  decide

/-- Witness for C5 at the loop-port edge of the initial graph. -/
theorem C5_loop_ports_witness :
    loopLoopEdge.sourceHandle = some "loop" ∨ loopLoopEdge.sourceHandle = some "done" :=
  C5_loop_ports.2.2 loopLoopEdge (by decide) (by decide)

/-- Every status value stored in a nodeStatus record is one of the values of
the TypeScript union. -/
def statusesValid (m : List (String × NodeExecutionStatus)) : Prop :=
  ∀ kv ∈ m, kv.2.status ∈ validStatuses

lemma mem_of_getKey {α : Type} (m : List (String × α)) (k : String) (v : α)
    (h : getKey m k = some v) : (k, v) ∈ m := by
  induction m with
  | nil => simp [getKey] at h
  | cons head rest ih =>
    obtain ⟨k1, v1⟩ := head
    rw [getKey] at h
    by_cases hk : k1 = k
    · simp only [hk, if_pos rfl] at h
      cases h
      simp [hk]
    · simp only [if_neg hk] at h
      exact List.mem_cons_of_mem _ (ih h)

lemma getKey_setKey_self {α : Type} (m : List (String × α)) (k : String) (v : α) :
    getKey (setKey m k v) k = some v := by
  induction m with
  | nil => simp [setKey, getKey]
  | cons head rest ih =>
    obtain ⟨k1, v1⟩ := head
    by_cases hk : k1 = k
    · simp [setKey, getKey, hk]
    · simp [setKey, getKey, hk, ih]

lemma statusesValid_setKey (m : List (String × NodeExecutionStatus)) (k : String)
    (v : NodeExecutionStatus) (hm : statusesValid m) (hv : v.status ∈ validStatuses) :
    statusesValid (setKey m k v) := by
  induction m with
  | nil =>
    intro kv hkv
    simp [setKey] at hkv
    simp [hkv, hv]
  | cons head rest ih =>
    obtain ⟨k1, v1⟩ := head
    intro kv hkv
    rw [setKey] at hkv
    by_cases hk : k1 = k
    · simp only [if_pos hk] at hkv
      rcases List.mem_cons.mp hkv with h1 | h2
      · simp [h1, hv]
      · exact hm kv (List.mem_cons_of_mem _ h2)
    · simp only [if_neg hk] at hkv
      rcases List.mem_cons.mp hkv with h1 | h2
      · exact hm kv (by simp [h1])
      · exact ih (fun kv2 hkv2 => hm kv2 (List.mem_cons_of_mem _ hkv2)) kv h2

lemma statusesValid_reset (st : StoreState) :
    statusesValid (resetExecutionState st).nodeStatus := by
  have hgen : ∀ (ns : List Node) (m : List (String × NodeExecutionStatus)),
      statusesValid m →
      statusesValid (ns.foldl (fun m n => setKey m n.id
        { status := "idle", result := none, stream := some "", usage := none }) m) := by
    intro ns
    induction ns with
    | nil => intro m hm; simpa using hm
    | cons n rest ih =>
      intro m hm
      rw [List.foldl_cons]
      exact ih _ (statusesValid_setKey _ _ _ hm (by decide))
  exact hgen st.nodes [] (by intro kv hkv; simp at hkv)

lemma statusesValid_errorCase (s : WsSession) (nid : Option String) (err : String)
    (h : statusesValid s.store.nodeStatus) :
    statusesValid (errorCase s nid err).store.nodeStatus := by
  cases nid with
  | none => exact h
  | some v =>
    rw [errorCase]
    by_cases hv : (v != "" && v != "system") = true
    · simp only [if_pos hv]
      apply statusesValid_setKey _ _ _ h
      show "error" ∈ validStatuses
      decide
    · simp only [if_neg hv]
      exact h

lemma statusesValid_handleMessage (s : WsSession) (m : ServerMsg)
    (h : statusesValid s.store.nodeStatus) :
    statusesValid (handleMessage s m).store.nodeStatus := by
  cases m with
  | node_start nid =>
    apply statusesValid_setKey _ _ _ h
    show "running" ∈ validStatuses
    decide
  | token_stream nid tok =>
    simp only [handleMessage]
    cases hg : getKey s.store.nodeStatus nid with
    | none => exact h
    | some e =>
      dsimp only
      cases hs : e.stream with
      | none => exact h
      | some cur =>
        dsimp only
        apply statusesValid_setKey _ _ _ h
        show e.status ∈ validStatuses
        simpa using h (nid, e) (mem_of_getKey _ _ _ hg)
  | node_finish nid res =>
    apply statusesValid_setKey _ _ _ h
    show "success" ∈ validStatuses
    decide
  | node_skipped nid =>
    apply statusesValid_setKey _ _ _ h
    show "skipped" ∈ validStatuses
    decide
  | node_usage nid itok otok ttok =>
    simp only [handleMessage]
    cases hg : getKey s.store.nodeStatus nid with
    | none => exact h
    | some e =>
      dsimp only
      apply statusesValid_setKey _ _ _ h
      show e.status ∈ validStatuses
      simpa using h (nid, e) (mem_of_getKey _ _ _ hg)
  | execution_complete => exact h
  | error nid err => exact statusesValid_errorCase s nid err h
  | node_error nid err => exact statusesValid_errorCase s nid err h
  | execution_error nid err => exact statusesValid_errorCase s nid err h

lemma statusesValid_processTrace (s : WsSession) (tr : List ServerMsg)
    (h : statusesValid s.store.nodeStatus) :
    statusesValid (processTrace s tr).store.nodeStatus := by
  induction tr generalizing s with
  | nil => exact h
  | cons m rest ih =>
    rw [processTrace, List.foldl_cons]
    exact ih _ (statusesValid_handleMessage s m h)

/-- C4 counterexample: right after the reset that starts a run, the recorded
status of a node is idle, which is not among the lifecycle statuses named by
the specification. -/
theorem C4_counterexample :
    ((getKey (resetExecutionState demoStore).nodeStatus "n1").map
      (fun e => e.status)) = some "idle" ∧
    ¬ ("idle" ∈ claimStatuses) :=
  ⟨rfl, by decide⟩

/-- C4 amended: at every point of a run, every recorded node status is a
member of the set of the TypeScript union: idle, running, success, error,
skipped; no other value ever occurs. -/
theorem C4_status_set (st : StoreState) (tr : List ServerMsg) (v : String)
    (e : NodeExecutionStatus)
    (h : getKey (processTrace { store := resetExecutionState st, wsClosed := false }
      tr).store.nodeStatus v = some e) :
    e.status ∈ validStatuses := by
  have hv := statusesValid_processTrace
    { store := resetExecutionState st, wsClosed := false } tr (statusesValid_reset st)
  exact hv (v, e) (mem_of_getKey _ _ _ h)

/-- Witness for the amended C4 after one node_start frame. -/
theorem C4_status_set_witness :
    getKey (processTrace { store := resetExecutionState demoStore, wsClosed := false }
      [ServerMsg.node_start "n1"]).store.nodeStatus "n1" =
      some { status := "running", result := none, stream := some "", usage := none } ∧
    ("running" : String) ∈ validStatuses :=
  ⟨rfl, C4_status_set demoStore [ServerMsg.node_start "n1"] "n1"
    { status := "running", result := none, stream := some "", usage := none } rfl⟩

/-- Concatenation of a list of token deltas in delivery order. -/
def joinAll (ts : List String) : String :=
  match ts with
  | [] => ""
  | t :: rest => t ++ joinAll rest

lemma streamOf_token_step (s : WsSession) (v tok cur : String)
    (h : streamOf s v = some cur) :
    streamOf (handleMessage s (ServerMsg.token_stream v tok)) v = some (cur ++ tok) := by
  rw [streamOf, Option.bind_eq_some] at h
  obtain ⟨e, hg, hs⟩ := h
  simp only [handleMessage, hg, hs]
  rw [streamOf, withNodeStatus]
  simp [getKey_setKey_self]

lemma streamOf_tokens (v : String) (ts : List String) :
    ∀ (s : WsSession) (cur : String), streamOf s v = some cur →
    streamOf (processTrace s (ts.map (fun t => ServerMsg.token_stream v t))) v =
      some (cur ++ joinAll ts) := by
  induction ts with
  | nil =>
    intro s cur h
    simpa [processTrace, joinAll] using h
  | cons t rest ih =>
    intro s cur h
    rw [List.map_cons, processTrace, List.foldl_cons]
    have hstep := streamOf_token_step s v t cur h
    have := ih (handleMessage s (ServerMsg.token_stream v t)) (cur ++ t) hstep
    rw [processTrace] at this
    rw [this, joinAll, String.append_assoc]

/-- C3: a node_start frame for a vertex resets its stream to the empty string,
a following sequence of token_stream frames accumulates exactly the
concatenation of the delivered tokens in order, and each single token_stream
frame only appends the delivered token to the previous stream value. -/
theorem C3_token_stream_append (s : WsSession) (v : String) (ts : List String)
    (s2 : WsSession) (cur tok : String) (h : streamOf s2 v = some cur) :
    streamOf (processTrace s
      (ServerMsg.node_start v :: ts.map (fun t => ServerMsg.token_stream v t))) v =
      some (joinAll ts) ∧
    streamOf (handleMessage s2 (ServerMsg.token_stream v tok)) v = some (cur ++ tok) := by
  refine ⟨?_, streamOf_token_step s2 v tok cur h⟩
  rw [processTrace, List.foldl_cons]
  have hstart : streamOf (handleMessage s (ServerMsg.node_start v)) v = some "" := by
    rw [streamOf, handleMessage, withNodeStatus]
    simp [getKey_setKey_self]
  have := streamOf_tokens v ts (handleMessage s (ServerMsg.node_start v)) "" hstart
  rw [processTrace] at this
  simpa using this

/-- Witness for C3 at a concrete two-token delivery. -/
theorem C3_token_stream_append_witness :
    streamOf { store := demoStore, wsClosed := false } "n1" = none ∨
    (streamOf (processTrace { store := demoStore, wsClosed := false }
      [ServerMsg.node_start "n1", ServerMsg.token_stream "n1" "Hel",
       ServerMsg.token_stream "n1" "lo"]) "n1" = some "Hello" ∧
     streamOf (handleMessage { store := resetExecutionState demoStore, wsClosed := false }
       (ServerMsg.token_stream "n1" "Hi")) "n1" = some ("" ++ "Hi")) :=
  Or.inr
    ⟨by
      have := (C3_token_stream_append { store := demoStore, wsClosed := false } "n1"
        ["Hel", "lo"] { store := resetExecutionState demoStore, wsClosed := false }
        "" "Hi" rfl).1
      simpa using this,
     (C3_token_stream_append { store := demoStore, wsClosed := false } "n1"
       ["Hel", "lo"] { store := resetExecutionState demoStore, wsClosed := false }
       "" "Hi" rfl).2⟩

lemma errorCase_isExecuting (s : WsSession) (nid : Option String) (err : String) :
    (errorCase s nid err).store.isExecuting = false := by
  cases nid with
  | none => rfl
  | some v =>
    rw [errorCase]
    by_cases hv : (v != "" && v != "system") = true
    · simp only [if_pos hv]; rfl
    · simp only [if_neg hv]; rfl

lemma handleMessage_terminal_stops (s : WsSession) (m : ServerMsg)
    (h : isTerminator m = true) :
    (handleMessage s m).store.isExecuting = false := by
  cases m
  case execution_complete => rfl
  case execution_error nid err => exact errorCase_isExecuting s nid err
  all_goals simp [isTerminator] at h

lemma handleMessage_stays_stopped (s : WsSession) (m : ServerMsg)
    (h : s.store.isExecuting = false) :
    (handleMessage s m).store.isExecuting = false := by
  cases m with
  | node_start nid => exact h
  | token_stream nid tok =>
    simp only [handleMessage]
    cases hg : getKey s.store.nodeStatus nid with
    | none => exact h
    | some e =>
      dsimp only
      cases hs : e.stream with
      | none => exact h
      | some cur => exact h
  | node_finish nid res => exact h
  | node_skipped nid => exact h
  | node_usage nid itok otok ttok =>
    simp only [handleMessage]
    cases hg : getKey s.store.nodeStatus nid with
    | none => exact h
    | some e => exact h
  | execution_complete => rfl
  | error nid err => exact errorCase_isExecuting s nid err
  | node_error nid err => exact errorCase_isExecuting s nid err
  | execution_error nid err => exact errorCase_isExecuting s nid err

lemma processTrace_stays_stopped (tr : List ServerMsg) :
    ∀ s : WsSession, s.store.isExecuting = false →
    (processTrace s tr).store.isExecuting = false := by
  induction tr with
  | nil => intro s h; exact h
  | cons m rest ih =>
    intro s h
    rw [processTrace, List.foldl_cons]
    exact ih _ (handleMessage_stays_stopped s m h)

lemma countTerminators_append (l1 l2 : List ServerMsg) :
    countTerminators (l1 ++ l2) = countTerminators l1 + countTerminators l2 := by
  simp [countTerminators, List.filter_append]

/-- C2: a well-formed run delivers exactly one terminal frame, as its last
frame; after the client processes that frame the isExecuting flag is false,
the websocket is closed when the terminator is execution_complete, and no
frame processed afterwards can ever set the flag again. The well-formedness
of the server trace is modelled from the spec; the client-side conclusions
are proved from the embedded handler. -/
theorem C2_run_terminator (s : WsSession) (pre post : List ServerMsg) (m : ServerMsg)
    (hm : isTerminator m = true)
    (hwf : wfServerTrace (pre ++ m :: post) = true) :
    post = [] ∧
    countTerminators (pre ++ [m]) = 1 ∧
    (processTrace s (pre ++ [m])).store.isExecuting = false ∧
    (m = ServerMsg.execution_complete →
      (processTrace s (pre ++ [m])).wsClosed = true) ∧
    (∀ later : List ServerMsg,
      (processTrace (processTrace s (pre ++ [m])) later).store.isExecuting = false) := by
  have hcount : countTerminators (pre ++ m :: post) = 1 := by
    rcases hglast : (pre ++ m :: post).getLast? with _ | x
    · rw [wfServerTrace, hglast] at hwf
      cases hwf
    · rw [wfServerTrace, hglast] at hwf
      rw [Bool.and_eq_true] at hwf
      simpa using hwf.2
  have hsplit : countTerminators (pre ++ m :: post) =
      countTerminators pre + (1 + countTerminators post) := by
    rw [countTerminators_append]
    congr 1
    simp [countTerminators, List.filter_cons, hm]
    omega
  have hzero : countTerminators pre = 0 ∧ countTerminators post = 0 := by
    omega
  have hpost : post = [] := by
    by_contra hne
    obtain ⟨x, hx⟩ : ∃ x, post.getLast? = some x := by
      cases hp : post.getLast? with
      | none => exact absurd (List.getLast?_eq_none_iff.mp hp) hne
      | some x => exact ⟨x, rfl⟩
    have hlast : (pre ++ m :: post).getLast? = some x := by
      rw [List.append_cons, List.getLast?_append, hx]
      rfl
    have hxterm : isTerminator x = true := by
      rw [wfServerTrace, hlast] at hwf
      rw [Bool.and_eq_true] at hwf
      exact hwf.1
    have hpos : 0 < countTerminators post := by
      have hmem : x ∈ post.filter isTerminator :=
        List.mem_filter.mpr ⟨List.mem_of_mem_getLast? hx, hxterm⟩
      exact List.length_pos_of_mem hmem
    omega
  subst hpost
  refine ⟨rfl, hcount, ?_, ?_, ?_⟩
  · rw [processTrace, List.foldl_append]
    simp only [List.foldl_cons, List.foldl_nil]
    exact handleMessage_terminal_stops _ m hm
  · intro hcm
    subst hcm
    rw [processTrace, List.foldl_append]
    simp only [List.foldl_cons, List.foldl_nil]
    rfl
  · intro later
    apply processTrace_stays_stopped
    rw [processTrace, List.foldl_append]
    simp only [List.foldl_cons, List.foldl_nil]
    exact handleMessage_terminal_stops _ m hm

/-- Witness for C2 at a concrete two-frame run ending in execution_complete. -/
theorem C2_run_terminator_witness :
    isTerminator ServerMsg.execution_complete = true ∧
    wfServerTrace ([ServerMsg.node_start "n1"] ++ ServerMsg.execution_complete :: []) = true ∧
    (processTrace { store := demoStore, wsClosed := false }
      ([ServerMsg.node_start "n1"] ++ [ServerMsg.execution_complete])).store.isExecuting = false :=
  ⟨rfl, by decide,
   (C2_run_terminator { store := demoStore, wsClosed := false }
     [ServerMsg.node_start "n1"] [] ServerMsg.execution_complete rfl (by decide)).2.2.1⟩

lemma totalCost_eq_sum (st : StoreState) :
    totalCost st = (st.nodeStatus.map (fun kv => recordedCost kv.2)).sum := by
  have hgen : ∀ (l : List (String × NodeExecutionStatus)) (acc : Rat),
      l.foldl
        (fun acc kv =>
          match kv.2.usage with
          | some u =>
            match u.cost with
            | some c => if c ≠ 0 then acc + c else acc
            | none => acc
          | none => acc) acc =
      acc + (l.map (fun kv => recordedCost kv.2)).sum := by
    intro l
    induction l with
    | nil => intro acc; simp
    | cons kv rest ih =>
      intro acc
      rw [List.foldl_cons, List.map_cons, List.sum_cons]
      cases hu : kv.2.usage with
      | none => simp only [hu]; rw [ih]; simp [recordedCost, hu]
      | some u =>
        cases hc : u.cost with
        | none => simp only [hu, hc]; rw [ih]; simp [recordedCost, hu, hc]
        | some c =>
          by_cases h0 : c ≠ 0
          · simp only [hu, hc, if_pos h0]
            rw [ih]
            simp [recordedCost, hu, hc]
            ring
          · have hc0 : c = 0 := by simpa using h0
            simp only [hu, hc, if_neg h0]
            rw [ih]
            simp [recordedCost, hu, hc, hc0]
  rw [totalCost, hgen st.nodeStatus 0, zero_add]

/-- C9: on a node_usage frame, when the model of the node is found in the
available model list with a pricing object whose prices parse, the recorded
cost is input tokens times the prompt price plus output tokens times the
completion price; when no pricing is found the cost is zero; and totalCost
always equals the sum of the recorded per-node costs. -/
theorem C9_usage_cost (s : WsSession) (stNo : StoreState) (v : String)
    (itok otok ttok : Nat) (pp pc : Rat) (e : NodeExecutionStatus)
    (hp : modelPricing s.store v = some { prompt := some pp, completion := some pc })
    (hz : modelPricing stNo v = none)
    (he : getKey s.store.nodeStatus v = some e) :
    nodeUsageCost s.store v itok otok = itok * pp + otok * pc ∧
    nodeUsageCost stNo v itok otok = 0 ∧
    ((getKey (handleMessage s (ServerMsg.node_usage v itok otok ttok)).store.nodeStatus
        v).bind (fun r => r.usage.bind (fun u => u.cost))) =
      some (nodeUsageCost s.store v itok otok) ∧
    (∀ st2 : StoreState,
      totalCost st2 = (st2.nodeStatus.map (fun kv => recordedCost kv.2)).sum) := by
  refine ⟨?_, ?_, ?_, fun st2 => totalCost_eq_sum st2⟩
  · rw [nodeUsageCost, hp]
    rfl
  · rw [nodeUsageCost, hz]
  · simp only [handleMessage, he]
    rw [withNodeStatus]
    simp [getKey_setKey_self]

/-- A model entry with parsed pricing, used as an evaluation point. -/
def pricedModel : ModelInfo :=
  { id := "openai/gpt-4"
    name := "GPT-4"
    pricing := some { prompt := some 2, completion := some 3 } }

/-- A node configured to use the priced model, used as an evaluation point. -/
def pricedNode : Node :=
  { id := "p1"
    type := "neural-llm"
    position := some { x := 0, y := 0 }
    data := some { label := none, inputValue := none, node_config := some { model := some "openai/gpt-4", max_iterations := none } }
    source := none
    target := none }

/-- A store holding the priced node with a running status record. -/
def pricedStore : StoreState :=
  { emptyStore with
    nodes := [pricedNode]
    availableModels := [pricedModel]
    nodeStatus :=
      [("p1", { status := "running", result := none, stream := some "", usage := none })] }

/-- Witness for C9 at concrete token counts and prices. -/
theorem C9_usage_cost_witness :
    modelPricing pricedStore "p1" = some { prompt := some 2, completion := some 3 } ∧
    nodeUsageCost pricedStore "p1" 1000 500 = (1000 : Rat) * 2 + (500 : Rat) * 3 :=
  ⟨by decide,
   (C9_usage_cost { store := pricedStore, wsClosed := false } emptyStore "p1"
     1000 500 1500 2 3
     { status := "running", result := none, stream := some "", usage := none }
     (by decide) (by decide) (by decide)).1⟩

lemma find?_append_of_none {α : Type} (l1 l2 : List α) (p : α → Bool)
    (h : l1.find? p = none) : (l1 ++ l2).find? p = l2.find? p := by
  induction l1 with
  | nil => simp
  | cons a rest ih =>
    cases hpa : p a with
    | true =>
      rw [List.find?_cons_of_pos _ hpa] at h
      cases h
    | false =>
      have hpa2 : ¬ p a = true := by simp [hpa]
      rw [List.find?_cons_of_neg _ hpa2] at h
      rw [List.cons_append, List.find?_cons_of_neg _ hpa2]
      exact ih h

/-- C10: saving appends a new entry with the requested name holding the
current nodes and edges; loading that entry by its fresh id restores
structurally equal nodes and edges and resets nodeStatus and isExecuting;
deleting by that id removes exactly that entry and leaves every other saved
workflow unchanged. -/
theorem C10_persistence (st : StoreState) (freshId now wfName : String)
    (hfresh : freshId ∉ st.savedWorkflows.map Flow.id) :
    getSavedWorkflows (saveWorkflow st freshId now wfName) =
      st.savedWorkflows ++
        [{ id := freshId, name := wfName, nodes := st.nodes, edges := st.edges,
           savedAt := now }] ∧
    (loadWorkflow (saveWorkflow st freshId now wfName) freshId).nodes = st.nodes ∧
    (loadWorkflow (saveWorkflow st freshId now wfName) freshId).edges = st.edges ∧
    (loadWorkflow (saveWorkflow st freshId now wfName) freshId).nodeStatus = [] ∧
    (loadWorkflow (saveWorkflow st freshId now wfName) freshId).isExecuting = false ∧
    getSavedWorkflows (deleteWorkflow (saveWorkflow st freshId now wfName) freshId) =
      st.savedWorkflows := by
  have hold : ∀ w ∈ st.savedWorkflows, w.id ≠ freshId := by
    intro w hw heq
    exact hfresh (List.mem_map.mpr ⟨w, hw, heq⟩)
  have hnone : st.savedWorkflows.find? (fun w => w.id == freshId) = none := by
    rw [List.find?_eq_none]
    intro w hw hbeq
    exact hold w hw (by simpa using hbeq)
  have hfind : (saveWorkflow st freshId now wfName).savedWorkflows.find?
      (fun w => w.id == freshId) =
      some { id := freshId, name := wfName, nodes := st.nodes, edges := st.edges,
             savedAt := now } := by
    rw [saveWorkflow]
    rw [find?_append_of_none _ _ _ hnone]
    simp
  refine ⟨rfl, ?_, ?_, ?_, ?_, ?_⟩
  · rw [loadWorkflow, hfind]
  · rw [loadWorkflow, hfind]
  · rw [loadWorkflow, hfind]
  · rw [loadWorkflow, hfind]
  · rw [deleteWorkflow, getSavedWorkflows, saveWorkflow]
    rw [List.filter_append]
    have h1 : st.savedWorkflows.filter (fun w => w.id != freshId) = st.savedWorkflows :=
      List.filter_eq_self.mpr (fun w hw => by simpa using hold w hw)
    have h2 : List.filter (fun w => w.id != freshId)
        [{ id := freshId, name := wfName, nodes := st.nodes, edges := st.edges,
           savedAt := now }] = ([] : List Flow) := by
      simp
    rw [h1, h2, List.append_nil]

/-- Witness for C10 at the empty store and a concrete fresh id. -/
theorem C10_persistence_witness :
    ("id1" : String) ∉ emptyStore.savedWorkflows.map Flow.id ∧
    getSavedWorkflows (deleteWorkflow (saveWorkflow emptyStore "id1" "t0" "wf") "id1") =
      emptyStore.savedWorkflows :=
  ⟨by decide,
   (C10_persistence emptyStore "id1" "t0" "wf" (by decide)).2.2.2.2.2⟩

end NeuralCanvas
